import Mathlib

/-!
Verification development for the query-expression compilation layer of
django/db/models/expressions.py (the CORE of the specification): expression
nodes, resolution against a query context, output-type inference, group-by
column collection, and rendering to parametrized SQL.

Modelling conventions:
* Expression nodes are a shallow embedding `Expr` of the classes in
  expressions.py.  Field names and behaviour follow the source; line numbers
  in comments refer to expressions.py.
* Python attribute mutation is modelled by explicit value passing: a method
  that may mutate its receiver returns the post-call receiver alongside its
  result (see `resolve`).
* Collaborators that live outside the given sources (the fields module, the
  queryset/query layer, the backend operations, Q/where condition trees,
  django.utils.functional.cached_property) are modelled from the spec; each
  such definition carries a doc comment starting `Modelled from the spec:`.
* Exceptions are modelled with `Except Err`.
-/

namespace DjangoExpr

/-- Modelled from the spec: the semantic field types ("output types") of the
fields module, which is outside the given sources.  The spec treats them as
atomic semantic types, so the `isinstance` test used by output-type
unification is class equality. -/
inductive FieldCls where
  | IntegerField
  | FloatField
  | BooleanField
  | DurationField
  | DateField
  | DateTimeField
  | TimeField
  | CharField
  deriving DecidableEq, Repr

/-- Modelled from the spec: `Field.get_internal_type()` returns the class
name of the field. -/
def internalType : FieldCls → String
  | .IntegerField => "IntegerField"
  | .FloatField => "FloatField"
  | .BooleanField => "BooleanField"
  | .DurationField => "DurationField"
  | .DateField => "DateField"
  | .DateTimeField => "DateTimeField"
  | .TimeField => "TimeField"
  | .CharField => "CharField"

/-- Modelled from the spec: `isinstance(instance, cls)` for the atomic field
types above is class equality. -/
def instanceOf (inst cls : FieldCls) : Bool := inst == cls

instance {ε α : Type} [DecidableEq ε] [DecidableEq α] : DecidableEq (Except ε α) := fun a b =>
  match a, b with
  | .ok x, .ok y =>
      if h : x = y then .isTrue (by rw [h])
      else .isFalse (by intro he; cases he; exact h rfl)
  | .ok _, .error _ => .isFalse (by intro he; cases he)
  | .error _, .ok _ => .isFalse (by intro he; cases he)
  | .error x, .error y =>
      if h : x = y then .isTrue (by rw [h])
      else .isFalse (by intro he; cases he; exact h rfl)

/-- SQL bind-parameter values (the payload of `Value` nodes). -/
inductive Val where
  | int (n : Int)
  | str (s : String)
  | null
  deriving DecidableEq, Repr

/-- The exception kinds raised by the modelled code: FieldError,
EmptyResultSet, ValueError, AttributeError (a missing attribute such as
`as_sql` on `F`, or `for_save` on an unresolved `Value`), NotImplementedError
and TypeError. -/
inductive Err where
  | fieldError
  | emptyResultSet
  | valueError
  | attributeError
  | notImplementedError
  | typeError
  deriving DecidableEq, Repr

/-- The `name` attribute of an `F`/`OuterRef`/`ResolvedOuterRef`: either a
plain field-name string, or (for `OuterRef`) itself an `OuterRef` — the
`isinstance(self.name, self.__class__)` test in `OuterRef.resolve_expression`
(line 507) inspects exactly this. -/
inductive FName where
  | str (s : String)
  | outer (n : FName)
  deriving DecidableEq, Repr

mutual

/-- The expression-node tree of expressions.py.  Constructors carry the
attributes the source reads: the declared `_output_field`, the `is_summary`
flag, and per-class payloads.  `agg` is Modelled from the spec: a terminal
aggregate node (the Aggregate subclasses live outside the given sources);
it behaves as a `BaseExpression` whose `contains_aggregate` is true. -/
inductive Expr where
  /-- `Value(value, output_field)`; `forSave` is `none` until
  `resolve_expression` sets it (the source only assigns `for_save` there). -/
  | value (v : Val) (declared : Option FieldCls) (forSave : Option Bool) (isSummary : Bool)
  /-- `CombinedExpression(lhs, connector, rhs, output_field)`. -/
  | combined (lhs : Expr) (connector : String) (rhs : Expr) (declared : Option FieldCls)
      (isSummary : Bool)
  /-- `Func(*expressions)` with its class-level `function` name (default
  template and joiner; per-call `extra` overrides are outside the modelled
  fragment). -/
  | func (srcs : List Expr) (fn : String) (declared : Option FieldCls) (isSummary : Bool)
  /-- `F(name)` — not a `BaseExpression`: it has no source expressions, no
  output-field machinery and no `as_sql`. -/
  | fref (name : FName)
  /-- `OuterRef(name)`. -/
  | outerRef (name : FName)
  /-- `ResolvedOuterRef(name)`. -/
  | resolvedOuterRef (name : FName)
  /-- `Col(alias, target)`; `tblAlias` is the source's `alias` attribute (a
  Lean keyword), `column` is `target.column`, `target` the target field
  (which is also the output field, line 693-694). -/
  | col (tblAlias : String) (column : String) (target : FieldCls) (isSummary : Bool)
  /-- `Ref(refs, source)`. -/
  | ref (refs : String) (source : Expr) (isSummary : Bool)
  /-- `When(condition, then=result)`. -/
  | whenE (condition : Cond) (result : Expr) (isSummary : Bool)
  /-- `Case(*cases, default=dflt, output_field=declared)`. -/
  | caseE (cases : List Expr) (dflt : Expr) (declared : Option FieldCls) (isSummary : Bool)
  /-- `Subquery(queryset, output_field)` (after `__init__`'s inference, see
  `subqueryInit`). -/
  | subquery (qs : QuerySet) (declared : Option FieldCls) (isSummary : Bool)
  /-- `Exists(queryset, output_field, negated=negated)`. -/
  | existsE (qs : QuerySet) (declared : Option FieldCls) (negated : Bool) (isSummary : Bool)
  /-- `OrderBy(expression, descending, nulls_first, nulls_last)`. -/
  | orderByE (expression : Expr) (descending : Bool) (nullsFirst : Bool) (nullsLast : Bool)
      (isSummary : Bool)
  /-- Modelled from the spec: an aggregate node (terminal aggregate clause);
  source expressions and declared output field as in `BaseExpression`. -/
  | agg (srcs : List Expr) (declared : Option FieldCls) (isSummary : Bool)

/-- Modelled from the spec: a condition under composition (a Q object /
resolved where-tree, external to expressions.py).  Its observable behaviour:
compiling it yields SQL and parameters, or raises the empty-result-set
signal when it is statically known to match no rows (`compiled = none`);
it reports whether it contains an aggregate, and contributes group-by
columns. -/
inductive Cond where
  | mk (compiled : Option (String × List Val)) (containsAgg : Bool) (gbCols : List Expr)

/-- Modelled from the spec: the nested query object wrapped by
`Subquery`/`Exists` (the queryset/query layer is outside the given sources).
`select` abstracts the selected columns by their field types; `ordering` the
order-by clause; `whereChildren` the filter tree's children (walked by
`Subquery.resolve_expression`); `annotations` the query's annotations;
`externalAliases` the external-alias set; `prefixBumped` whether
`bump_prefix` has re-namespaced the aliases; `sql`/`params` its compiled
form as produced by the nested query's own compiler. -/
inductive QuerySet where
  | mk (select : List FieldCls) (ordering : List String) (whereChildren : List WChild)
      (annotations : List (String × Expr)) (externalAliases : List String)
      (prefixBumped : Bool) (sql : String) (params : List Val)

/-- Modelled from the spec: a child of the nested query's filter tree, as
walked by `resolve_all` (lines 935-939): inner where-nodes have `children`;
lookups have an optional `lhs` and an `rhs`. -/
inductive WChild where
  | node (children : List WChild)
  | lookup (lhs : Option Expr) (rhs : Rhs)

/-- The right-hand side of a lookup: a plain value (no `resolve_expression`
attribute, left untouched by `resolve`, line 952) or an expression. -/
inductive Rhs where
  | plain (v : Val)
  | expr (e : Expr)

end

def Cond.compiled : Cond → Option (String × List Val)
  | .mk c _ _ => c

def Cond.containsAgg : Cond → Bool
  | .mk _ a _ => a

def Cond.gbCols : Cond → List Expr
  | .mk _ _ g => g

def QuerySet.select : QuerySet → List FieldCls
  | .mk s _ _ _ _ _ _ _ => s

def QuerySet.ordering : QuerySet → List String
  | .mk _ o _ _ _ _ _ _ => o

def QuerySet.whereChildren : QuerySet → List WChild
  | .mk _ _ w _ _ _ _ _ => w

def QuerySet.annotations : QuerySet → List (String × Expr)
  | .mk _ _ _ a _ _ _ _ => a

def QuerySet.externalAliases : QuerySet → List String
  | .mk _ _ _ _ ea _ _ _ => ea

def QuerySet.prefixBumped : QuerySet → Bool
  | .mk _ _ _ _ _ pb _ _ => pb

def QuerySet.sql : QuerySet → String
  | .mk _ _ _ _ _ _ s _ => s

def QuerySet.params : QuerySet → List Val
  | .mk _ _ _ _ _ _ _ p => p

/-- Modelled from the spec: `queryset.order_by()` with no arguments returns a
clone of the queryset with the ordering cleared ("strips ordering from the
nested query before rendering", spec section 4.5). -/
def QuerySet.orderByNone : QuerySet → QuerySet
  | .mk s _ w a ea pb sql p => .mk s [] w a ea pb sql p

/-- A member of the `get_source_expressions()` list.  The list is
heterogeneous in the source: `When.get_source_expressions` returns
`[self.condition, self.result]` where the condition is a Q/where-tree, not
an expression node. -/
inductive Child where
  | cnd (c : Cond)
  | ex (e : Expr)

/-- `[x for x in [getattr(expr, 'lhs', None) for expr in where.children] if x]`
(lines 963-968): the non-None `lhs` attributes of the top-level filter-tree
children. -/
def collectLhs : List WChild → List Expr
  | [] => []
  | .lookup (some l) _ :: rest => l :: collectLhs rest
  | _ :: rest => collectLhs rest

/-- `get_source_expressions()` per class.  `none` for the `F` family, which
does not define the method (`F` subclasses only `Combinable`).  Base
implementation (line 136-137) returns `[]`; `CombinedExpression` line
375-376; `Func` line 543-544; `Ref` line 731-732; `When` line 793-794;
`Case` line 861-862; `Subquery` lines 962-968; `OrderBy` line 1057-1058. -/
def get_source_expressions : Expr → Option (List Child)
  | .value _ _ _ _ => some []
  | .combined l _ r _ _ => some [.ex l, .ex r]
  | .func srcs _ _ _ => some (srcs.map .ex)
  | .fref _ => none
  | .outerRef _ => none
  | .resolvedOuterRef _ => none
  | .col _ _ _ _ => some []
  | .ref _ s _ => some [.ex s]
  | .whenE c r _ => some [.cnd c, .ex r]
  | .caseE cs d _ _ => some (cs.map .ex ++ [.ex d])
  | .subquery qs _ _ => some ((collectLhs qs.whereChildren).map .ex)
  | .existsE qs _ _ _ => some ((collectLhs qs.whereChildren).map .ex)
  | .orderByE e _ _ _ _ => some [.ex e]
  | .agg srcs _ _ => some (srcs.map .ex)

mutual

/-- `contains_aggregate` (lines 177-182): true iff some source expression
contains an aggregate.  The `F` family lacks the attribute in the source (it
never appears among resolved source expressions); modelled as `false`.
`agg` nodes are aggregates. -/
def contains_aggregateE : Expr → Bool
  | .value _ _ _ _ => false
  | .combined l _ r _ _ => contains_aggregateE l || contains_aggregateE r
  | .func srcs _ _ _ => contains_aggregateL srcs
  | .fref _ => false
  | .outerRef _ => false
  | .resolvedOuterRef _ => false
  | .col _ _ _ _ => false
  | .ref _ s _ => contains_aggregateE s
  | .whenE c r _ => c.containsAgg || contains_aggregateE r
  | .caseE cs d _ _ => contains_aggregateL cs || contains_aggregateE d
  | .subquery (.mk _ _ w _ _ _ _ _) _ _ => containsAggLhs w
  | .existsE (.mk _ _ w _ _ _ _ _) _ _ _ => containsAggLhs w
  | .orderByE e _ _ _ _ => contains_aggregateE e
  | .agg _ _ _ => true

def contains_aggregateL : List Expr → Bool
  | [] => false
  | e :: es => contains_aggregateE e || contains_aggregateL es

/-- `contains_aggregate` ranging over the collected `lhs` source expressions
of a subquery's filter tree (same elements as `collectLhs`). -/
def containsAggLhs : List WChild → Bool
  | [] => false
  | .lookup (some l) _ :: rest => contains_aggregateE l || containsAggLhs rest
  | _ :: rest => containsAggLhs rest

end

mutual

/-- `get_group_by_cols()` per class.  Base implementation (lines 303-309):
`[self]` when the node contains no aggregate, otherwise the concatenation of
the sources' group-by columns.  Overrides: `Value` returns `[]` (634-635);
`Col` and `Ref` return `[self]` (709-710, 748-749); `When` (824-829) and
`OrderBy` (1092-1096) always collect from their sources.  The `F` family
does not define the method in the source; modelled with the base behaviour
(they hold no aggregate, giving `[self]`) and excluded from the theorems. -/
def get_group_by_colsE (e : Expr) : List Expr :=
  match e with
  | .value _ _ _ _ => []
  | .combined l _ r _ _ =>
      if contains_aggregateE e then get_group_by_colsE l ++ get_group_by_colsE r else [e]
  | .func srcs _ _ _ =>
      if contains_aggregateE e then gbList srcs else [e]
  | .fref _ => [e]
  | .outerRef _ => [e]
  | .resolvedOuterRef _ => [e]
  | .col _ _ _ _ => [e]
  | .ref _ _ _ => [e]
  | .whenE c r _ => c.gbCols ++ get_group_by_colsE r
  | .caseE cs d _ _ =>
      if contains_aggregateE e then gbList cs ++ get_group_by_colsE d else [e]
  | .subquery (.mk _ _ w _ _ _ _ _) _ _ =>
      if contains_aggregateE e then gbLhs w else [e]
  | .existsE (.mk _ _ w _ _ _ _ _) _ _ _ =>
      if contains_aggregateE e then gbLhs w else [e]
  | .orderByE ex _ _ _ _ => get_group_by_colsE ex
  | .agg srcs _ _ =>
      if contains_aggregateE e then gbList srcs else [e]

def gbList : List Expr → List Expr
  | [] => []
  | e :: es => get_group_by_colsE e ++ gbList es

/-- Group-by collection over the collected `lhs` source expressions of a
subquery's filter tree. -/
def gbLhs : List WChild → List Expr
  | [] => []
  | .lookup (some l) _ :: rest => get_group_by_colsE l ++ gbLhs rest
  | _ :: rest => gbLhs rest

end

/-- The loop of `_resolve_output_field` (lines 260-266) run over the source
fields, starting from the current `_output_field`: sources with no output
field are skipped; the first typed source fixes the field; a later typed
source of a different class raises FieldError.  Returns the final
`_output_field` value and whether FieldError was raised. -/
def rofLoop (cur : Option FieldCls) : List (Option FieldCls) → Option FieldCls × Bool
  | [] => (cur, false)
  | src :: rest =>
    let cur2 := match cur with
      | none => src
      | some f => some f
    match src with
    | none => rofLoop cur2 rest
    | some g =>
      match cur2 with
      | some f => if instanceOf f g then rofLoop cur2 rest else (cur2, true)
      | none => (cur2, true)

/-- `_resolve_output_field` (lines 241-266) for a node with no declared
output field, as a pure function of the source fields: with zero sources the
output field stays unresolved (`none`); otherwise the unification loop runs
(FieldError surfacing as `Except.error`). -/
def resolveOutputField (sources : List (Option FieldCls)) : Except Err (Option FieldCls) :=
  if sources.length = 0 then .ok none
  else
    let p := rofLoop none sources
    if p.2 then .error .fieldError else .ok p.1

mutual

/-- `_output_field_or_none` (lines 229-239) on first access, per class: the
declared `_output_field` if set, else `_resolve_output_field` over
`get_source_fields()`.  `get_source_fields` (lines 311-313) collects the
children's `_output_field_or_none` — a raising child propagates — and `When`
overrides it to `[self.result._output_field_or_none]` (lines 799-801).  The
`F` family has no output-field machinery: accessing it raises
AttributeError.  `Col`'s output field is its target (line 693-694). -/
def ofonE : Expr → Except Err (Option FieldCls)
  | .value _ d _ _ =>
      match d with
      | some f => .ok (some f)
      | none => resolveOutputField []
  | .combined l _ r d _ =>
      match d with
      | some f => .ok (some f)
      | none =>
          match ofonE l with
          | .error er => .error er
          | .ok fl =>
              match ofonE r with
              | .error er => .error er
              | .ok fr => resolveOutputField [fl, fr]
  | .func srcs _ d _ =>
      match d with
      | some f => .ok (some f)
      | none =>
          match ofonL srcs with
          | .error er => .error er
          | .ok fs => resolveOutputField fs
  | .fref _ => .error .attributeError
  | .outerRef _ => .error .attributeError
  | .resolvedOuterRef _ => .error .attributeError
  | .col _ _ t _ => .ok (some t)
  | .ref _ s _ =>
      match ofonE s with
      | .error er => .error er
      | .ok f => resolveOutputField [f]
  | .whenE _ r _ =>
      match ofonE r with
      | .error er => .error er
      | .ok f => resolveOutputField [f]
  | .caseE cs d dec _ =>
      match dec with
      | some f => .ok (some f)
      | none =>
          match ofonL cs with
          | .error er => .error er
          | .ok fs =>
              match ofonE d with
              | .error er => .error er
              | .ok fd => resolveOutputField (fs ++ [fd])
  | .subquery (.mk _ _ w _ _ _ _ _) dec _ =>
      match dec with
      | some f => .ok (some f)
      | none =>
          match ofonLhs w with
          | .error er => .error er
          | .ok fs => resolveOutputField fs
  | .existsE (.mk _ _ w _ _ _ _ _) dec _ _ =>
      match dec with
      | some f => .ok (some f)
      | none =>
          match ofonLhs w with
          | .error er => .error er
          | .ok fs => resolveOutputField fs
  | .orderByE e _ _ _ _ =>
      match ofonE e with
      | .error er => .error er
      | .ok f => resolveOutputField [f]
  | .agg srcs d _ =>
      match d with
      | some f => .ok (some f)
      | none =>
          match ofonL srcs with
          | .error er => .error er
          | .ok fs => resolveOutputField fs

def ofonL : List Expr → Except Err (List (Option FieldCls))
  | [] => .ok []
  | e :: es =>
      match ofonE e with
      | .error er => .error er
      | .ok f =>
          match ofonL es with
          | .error er => .error er
          | .ok fs => .ok (f :: fs)

/-- Source fields over the collected `lhs` source expressions of a
subquery's filter tree. -/
def ofonLhs : List WChild → Except Err (List (Option FieldCls))
  | [] => .ok []
  | .lookup (some l) _ :: rest =>
      match ofonE l with
      | .error er => .error er
      | .ok f =>
          match ofonLhs rest with
          | .error er => .error er
          | .ok fs => .ok (f :: fs)
  | _ :: rest => ofonLhs rest

end

/-- The `output_field` accessor (lines 222-227): raises FieldError when the
output field cannot be resolved.  `Exists` overrides it with a plain property
returning `BooleanField()` unconditionally (lines 1012-1014); the property is
a data descriptor, so it wins over any stored `_output_field`. -/
def output_fieldE (e : Expr) : Except Err FieldCls :=
  match e with
  | .existsE _ _ _ _ => .ok .BooleanField
  | _ =>
      match ofonE e with
      | .ok none => .error .fieldError
      | .ok (some f) => .ok f
      | .error er => .error er

/-- `Subquery.__init__`'s output-field inference (lines 917-922): with no
explicit output field and exactly one selected column, the column's field
becomes the declared output field. -/
def inferredOutputField (qs : QuerySet) (ofld : Option FieldCls) : Option FieldCls :=
  match ofld with
  | some f => some f
  | none => if qs.select.length = 1 then qs.select.head? else none

/-- `Subquery(queryset, output_field)`. -/
def subqueryInit (qs : QuerySet) (ofld : Option FieldCls) : Expr :=
  .subquery qs (inferredOutputField qs ofld) false

/-- `Exists(queryset, output_field, negated=negated)`: stores `negated` and
delegates to `Subquery.__init__` (lines 1005-1007). -/
def existsInit (qs : QuerySet) (ofld : Option FieldCls) (negated : Bool) : Expr :=
  .existsE qs (inferredOutputField qs ofld) negated false

/-- `OrderBy.__init__` (lines 1040-1048): `nulls_first` and `nulls_last` are
mutually exclusive (ValueError when both are set).  Every modelled node type
provides `resolve_expression`, so the expression-type check passes. -/
def orderByInit (expression : Expr) (descending nullsFirst nullsLast : Bool) :
    Except Err Expr :=
  if nullsFirst && nullsLast then .error .valueError
  else .ok (.orderByE expression descending nullsFirst nullsLast false)

/-- Modelled from the spec: the query context a node is resolved against.
Its one operation consumed by the given sources is `resolve_ref(name,
allow_joins, reuse, summarize)` (called by `F.resolve_expression`, lines
472-473), which binds a symbolic name to a node of the concrete query
(glossary: "Resolve: bind a node's symbolic references to the concrete query
context, producing a new node"). -/
structure Query where
  resolveRef : FName → Bool → Option (List String) → Bool → Expr

/-- Modelled from the spec: resolution of the external Q/where-tree condition
collaborator held by a `When` node ("bind the condition against the query").
On the already-resolved condition representation used here it is the
condition itself. -/
def condResolve (c : Cond) : Cond := c

mutual

/-- `resolve_expression(query, allow_joins, reuse, summarize, for_save)`,
returning the pair (result node, post-call receiver).  The receiver
component models Python object mutation: the base implementation
(lines 206-212) works on a shallow `copy()`, but the copy shares the child
objects, so a child whose own resolve mutates it (only `Exists`, line 1019:
`self.queryset = self.queryset.order_by()`) alters the receiver's children
too.  Per class: `CombinedExpression` (411-416), `F` (472-473), `OuterRef`
(506-509), `Func` (549-554), `Value` (629-632), `Ref` (737-740, returns
itself), `When` (803-809, the condition resolved with `for_save=False`),
`Case` (868-874), `Subquery` (929-960), `Exists` (1016-1020), `OrderBy` and
`Value`/`Col` via the base implementation, which passes the children
`(query, allow_joins, reuse, summarize)` — so the children's `for_save`
defaults to False.  `agg` is Modelled from the spec with the base
behaviour. -/
def resolve (e : Expr) (q : Query) (aj : Bool) (ru : Option (List String)) (sm fs : Bool) :
    Expr × Expr :=
  match e with
  | .value v d fs0 i => (.value v d (some fs) sm, .value v d fs0 i)
  | .combined l c r d i =>
      let pl := resolve l q aj ru sm fs
      let pr := resolve r q aj ru sm fs
      (.combined pl.1 c pr.1 d sm, .combined pl.2 c pr.2 d i)
  | .func srcs f d i =>
      let p := resolveList srcs q aj ru sm fs
      (.func p.1 f d sm, .func p.2 f d i)
  | .fref n => (q.resolveRef n aj ru sm, .fref n)
  | .outerRef n =>
      match n with
      | .outer inner => (.outerRef inner, .outerRef n)
      | .str s => (.resolvedOuterRef (.str s), .outerRef n)
  | .resolvedOuterRef n => (q.resolveRef n aj ru sm, .resolvedOuterRef n)
  | .col a c t i => (.col a c t sm, .col a c t i)
  | .ref r s i => (.ref r s i, .ref r s i)
  | .whenE c r i =>
      let pr := resolve r q aj ru sm fs
      (.whenE (condResolve c) pr.1 sm, .whenE c pr.2 i)
  | .caseE cs d dec i =>
      let p := resolveList cs q aj ru sm fs
      let pd := resolve d q aj ru sm fs
      (.caseE p.1 pd.1 dec sm, .caseE p.2 pd.2 dec i)
  | .subquery (.mk sel ord w a ea pb sq pp) dec i =>
      -- `clone = self.copy()` deep-copies the nested query (`queryset.all()`,
      -- lines 924-927; Modelled from the spec, section 5: each resolution
      -- works off its own deep copy), so the receiver is untouched;
      -- `bump_prefix` re-namespaces the clone's aliases; `resolve_all` walks
      -- the clone's filter tree; Subquery-valued annotations are resolved.
      let pw := resolveWList w q aj ru sm fs
      let pa := resolveAnnots a q aj ru sm fs
      (.subquery (.mk sel ord pw.1 pa (ea ++ pw.2) true sq pp) dec sm,
       .subquery (.mk sel ord w a ea pb sq pp) dec i)
  | .existsE (.mk sel _ord w a ea pb sq pp) dec ng i =>
      -- line 1019: `self.queryset = self.queryset.order_by()` strips the
      -- ordering ON THE RECEIVER, then delegates to Subquery.resolve_expression.
      let pw := resolveWList w q aj ru sm fs
      let pa := resolveAnnots a q aj ru sm fs
      (.existsE (.mk sel [] pw.1 pa (ea ++ pw.2) true sq pp) dec ng sm,
       .existsE (.mk sel [] w a ea pb sq pp) dec ng i)
  | .orderByE ex de nf nl i =>
      let p := resolve ex q aj ru sm false
      (.orderByE p.1 de nf nl sm, .orderByE p.2 de nf nl i)
  | .agg srcs d i =>
      let p := resolveList srcs q aj ru sm false
      (.agg p.1 d sm, .agg p.2 d i)

def resolveList (es : List Expr) (q : Query) (aj : Bool) (ru : Option (List String))
    (sm fs : Bool) : List Expr × List Expr :=
  match es with
  | [] => ([], [])
  | e :: rest =>
      let p := resolve e q aj ru sm fs
      let ps := resolveList rest q aj ru sm fs
      (p.1 :: ps.1, p.2 :: ps.2)

/-- The `resolve` helper inside `Subquery.resolve_expression` (lines
941-952) applied to a lookup's `rhs`: an expression is resolved against the
OUTER query; when the resolution yields a node with an `alias` attribute
(a `Col`), that alias is registered as an external alias; plain values pass
through. -/
def resolveRhs (r : Rhs) (q : Query) (aj : Bool) (ru : Option (List String)) (sm fs : Bool) :
    Rhs × List String :=
  match r with
  | .plain v => (.plain v, [])
  | .expr e =>
      let resolved := (resolve e q aj ru sm fs).1
      match resolved with
      | .col a c t i => (.expr (.col a c t i), [a])
      | other => (.expr other, [])

/-- `resolve_all` (lines 935-939) on one filter-tree child: recurse into
inner nodes' children, rebind a lookup's `rhs` to its resolution.  Returns
the rewritten child and the external aliases collected. -/
def resolveW (c : WChild) (q : Query) (aj : Bool) (ru : Option (List String)) (sm fs : Bool) :
    WChild × List String :=
  match c with
  | .node children =>
      let p := resolveWList children q aj ru sm fs
      (.node p.1, p.2)
  | .lookup lhs rhs =>
      let p := resolveRhs rhs q aj ru sm fs
      (.lookup lhs p.1, p.2)

def resolveWList (cs : List WChild) (q : Query) (aj : Bool) (ru : Option (List String))
    (sm fs : Bool) : List WChild × List String :=
  match cs with
  | [] => ([], [])
  | c :: rest =>
      let p := resolveW c q aj ru sm fs
      let ps := resolveWList rest q aj ru sm fs
      (p.1 :: ps.1, p.2 ++ ps.2)

/-- The annotations loop of `Subquery.resolve_expression` (lines 956-958):
each annotation value that is a `Subquery` (`Exists` included —
`isinstance(value, Subquery)`) is rebound to its resolution; other values
are untouched. -/
def resolveAnnots (annots : List (String × Expr)) (q : Query) (aj : Bool)
    (ru : Option (List String)) (sm fs : Bool) : List (String × Expr) :=
  match annots with
  | [] => []
  | (k, v) :: rest =>
      let v2 :=
        match v with
        | .subquery qs dec i => (resolve (.subquery qs dec i) q aj ru sm fs).1
        | .existsE qs dec ng i => (resolve (.existsE qs dec ng i) q aj ru sm fs).1
        | other => other
      (k, v2) :: resolveAnnots rest q aj ru sm fs

end

mutual

/-- The receiver's state after `resolve_expression`, characterized directly:
every node is left unchanged except an `Exists`, whose queryset is replaced
by an order-stripped clone — both when resolve is called on it and when it
is reached as a child along the resolve walk (the shallow `copy()` shares
children).  `Ref.resolve_expression` returns itself without resolving its
source, and `Subquery` works on a deep copy, so neither recurses. -/
def postResolve (e : Expr) : Expr :=
  match e with
  | .combined l c r d i => .combined (postResolve l) c (postResolve r) d i
  | .func srcs f d i => .func (postResolveL srcs) f d i
  | .whenE c r i => .whenE c (postResolve r) i
  | .caseE cs d dec i => .caseE (postResolveL cs) (postResolve d) dec i
  | .existsE qs dec ng i => .existsE qs.orderByNone dec ng i
  | .orderByE ex de nf nl i => .orderByE (postResolve ex) de nf nl i
  | .agg srcs d i => .agg (postResolveL srcs) d i
  | other => other

def postResolveL (es : List Expr) : List Expr :=
  match es with
  | [] => []
  | e :: rest => postResolve e :: postResolveL rest

end

mutual

/-- True when the resolve walk from this node reaches no `Exists` node: such
receivers are left unchanged by `resolve`.  The walk mirrors
`resolve_expression`: it enters the children of `CombinedExpression`,
`Func`, `When` (result only), `Case`, `OrderBy` and aggregate nodes, but not
`Ref` (returns itself) nor the deep-copied queryset of a `Subquery`. -/
def noExistsWalk (e : Expr) : Bool :=
  match e with
  | .existsE _ _ _ _ => false
  | .combined l _ r _ _ => noExistsWalk l && noExistsWalk r
  | .func srcs _ _ _ => noExistsWalkL srcs
  | .whenE _ r _ => noExistsWalk r
  | .caseE cs d _ _ => noExistsWalkL cs && noExistsWalk d
  | .orderByE ex _ _ _ _ => noExistsWalk ex
  | .agg srcs _ _ => noExistsWalkL srcs
  | _ => true

def noExistsWalkL (es : List Expr) : Bool :=
  match es with
  | [] => true
  | e :: rest => noExistsWalk e && noExistsWalkL rest

end

/-- Modelled from the spec: the compiler/connection collaborator consumed by
rendering (spec section 6) — identifier quoting, dialect capability flags
and the dialect-specific SQL fragment builders.  The base backend's
`check_expression_support` is a no-op and its `unification_cast_sql`
template is a plain passthrough, so neither constrains the fields here;
`compile(node)` itself is `compileE` below (default vendor: no `as_vendor`
overrides). -/
structure Conn where
  hasNativeDurationField : Bool
  combineExpression : String → List String → String
  combineDurationExpression : String → List String → String
  unificationCastSql : FieldCls → String → String
  quoteName : String → String
  quoteNameUnlessAlias : String → String
  formatForDurationArithmetic : String → String
  subtractTemporals : String → String × List Val → String × List Val → String × List Val

/-- The `try/except FieldError` around `self.lhs.output_field` in
`CombinedExpression.as_sql` (lines 382-389): FieldError becomes `None`;
any other exception propagates. -/
def catchFieldError (r : Except Err FieldCls) : Except Err (Option FieldCls) :=
  match r with
  | .ok f => .ok (some f)
  | .error .fieldError => .ok none
  | .error er => .error er

/-- The duration-dispatch condition of `CombinedExpression.as_sql` (lines
390-392): no native duration field, and either side's output type is a
duration (a `None` output is falsy). -/
def durCondition (conn : Conn) (lo ro : Option FieldCls) : Bool :=
  !conn.hasNativeDurationField &&
    ((match lo with
      | some f => internalType f == "DurationField"
      | none => false) ||
     (match ro with
      | some f => internalType f == "DurationField"
      | none => false))

/-- The temporal-subtraction dispatch condition of
`CombinedExpression.as_sql` (lines 394-396): both sides typed, connector is
SUB, the lhs type is date/datetime/time and both sides have the same
internal type. -/
def tempCondition (c : String) (lo ro : Option FieldCls) : Bool :=
  match lo, ro with
  | some f, some g =>
      c == "-" &&
      (internalType f == "DateField" || internalType f == "DateTimeField" ||
        internalType f == "TimeField") &&
      internalType f == internalType g
  | _, _ => false

/-- Compiling the external condition collaborator (`compiler.compile(self.condition)`
in `When.as_sql`, line 815).  Modelled from the spec: a condition statically
known to match no rows raises the empty-result-set signal; otherwise its
compiled SQL and parameters are produced. -/
def compileCond (c : Cond) : Except Err (String × List Val) :=
  match c.compiled with
  | none => .error .emptyResultSet
  | some sp => .ok sp

/-- `DurationExpression.compile` (lines 420-430), phrased over the side's
already-computed output field and plain compilation: a side whose output
type is a duration has its compiled SQL wrapped with the dialect's
duration-arithmetic formatter (`DurationValue` literals are outside the
modelled fragment, so the `isinstance(side, DurationValue)` short-circuit
does not arise); a FieldError from the side's output field falls through to
the plain compilation, other exceptions propagate. -/
def durCompilePost (conn : Conn) (ofld : Except Err FieldCls)
    (compiled : Except Err (String × List Val)) : Except Err (String × List Val) :=
  match ofld with
  | .error .fieldError => compiled
  | .error er => .error er
  | .ok f =>
      if internalType f == "DurationField" then
        match compiled with
        | .error er => .error er
        | .ok p => .ok (conn.formatForDurationArithmetic p.1, p.2)
      else compiled

/-- `DurationExpression.as_sql` (lines 432-445) — the ephemeral
`DurationExpression(lhs, connector, rhs)` built at line 393 — phrased over
the two sides compiled through `durCompilePost`. -/
def durationAsSqlPost (conn : Conn) (c : String) (lp rp : Except Err (String × List Val)) :
    Except Err (String × List Val) :=
  match lp with
  | .error er => .error er
  | .ok l =>
      match rp with
      | .error er => .error er
      | .ok r => .ok ("(" ++ conn.combineDurationExpression c [l.1, r.1] ++ ")", l.2 ++ r.2)

/-- `TemporalSubtraction.as_sql` (lines 452-456) — the ephemeral
`TemporalSubtraction(lhs, rhs)` built at line 397 — phrased over the two
compiled sides and the lhs's output field: the dialect's subtract-temporals
builder applied to the lhs's internal type. -/
def temporalAsSqlPost (conn : Conn) (lp rp : Except Err (String × List Val))
    (lof : Except Err FieldCls) : Except Err (String × List Val) :=
  match lp with
  | .error er => .error er
  | .ok l =>
      match rp with
      | .error er => .error er
      | .ok r =>
          match lof with
          | .error er => .error er
          | .ok f => .ok (conn.subtractTemporals (internalType f) l r)

mutual

/-- `compiler.compile(node)` with the default vendor, i.e. each class's
`as_sql(compiler, connection)`.  Per class: `Value` (611-627, with the
external field prep functions modelled as identity and none of the modelled
field classes defining `get_placeholder`), `CombinedExpression` (381-409),
`Func` (556-576, default template and joiner), `ResolvedOuterRef` (495-499,
unconditional ValueError), `F`/`OuterRef` (no `as_sql` attribute:
AttributeError), `Col` (702-704), `Ref` (745-746), `When` (811-822),
`Case` (881-907), `Subquery` (979-988), `Exists` (1022-1026), `OrderBy`
(1060-1074).  Aggregate rendering lives outside the modelled fragment
(NotImplementedError).  `check_expression_support` is the base backend
no-op. -/
def compileE (conn : Conn) (e : Expr) : Except Err (String × List Val) :=
  match e with
  | .value v d fsv _ =>
      if d.isSome then
        match fsv with
        | none => .error .attributeError
        | some _ => if v = .null then .ok ("NULL", []) else .ok ("%s", [v])
      else if v = .null then .ok ("NULL", []) else .ok ("%s", [v])
  | .combined l c r _ _ =>
      match catchFieldError (output_fieldE l) with
      | .error er => .error er
      | .ok lo =>
          match catchFieldError (output_fieldE r) with
          | .error er => .error er
          | .ok ro =>
              if durCondition conn lo ro then
                durationAsSqlPost conn c
                  (durCompilePost conn (output_fieldE l) (compileE conn l))
                  (durCompilePost conn (output_fieldE r) (compileE conn r))
              else if tempCondition c lo ro then
                temporalAsSqlPost conn (compileE conn l) (compileE conn r) (output_fieldE l)
              else
                match compileE conn l with
                | .error er => .error er
                | .ok lp =>
                    match compileE conn r with
                    | .error er => .error er
                    | .ok rp =>
                        .ok ("(" ++ conn.combineExpression c [lp.1, rp.1] ++ ")",
                          lp.2 ++ rp.2)
  | .func srcs f _ _ =>
      match compileList conn srcs with
      | .error er => .error er
      | .ok p => .ok (f ++ "(" ++ String.intercalate ", " p.1 ++ ")", p.2)
  | .fref _ => .error .attributeError
  | .outerRef _ => .error .attributeError
  | .resolvedOuterRef _ => .error .valueError
  | .col a c _ _ => .ok (conn.quoteNameUnlessAlias a ++ "." ++ conn.quoteNameUnlessAlias c, [])
  | .ref r _ _ => .ok (conn.quoteName r, [])
  | .whenE c r _ =>
      match compileCond c with
      | .error er => .error er
      | .ok cp =>
          match compileE conn r with
          | .error er => .error er
          | .ok rp => .ok ("WHEN " ++ cp.1 ++ " THEN " ++ rp.1, cp.2 ++ rp.2)
  | .caseE cs d dec i =>
      if cs.isEmpty then compileE conn d
      else
        match compileCases conn cs with
        | .error er => .error er
        | .ok parts =>
            match compileE conn d with
            | .error er => .error er
            | .ok dp =>
                if parts.1.isEmpty then .ok dp
                else
                  let baseSql :=
                    "CASE " ++ String.intercalate " " parts.1 ++ " ELSE " ++ dp.1 ++ " END"
                  match ofonE (.caseE cs d dec i) with
                  | .error er => .error er
                  | .ok (some f) =>
                      .ok (conn.unificationCastSql f baseSql, parts.2 ++ dp.2)
                  | .ok none => .ok (baseSql, parts.2 ++ dp.2)
  | .subquery qs dec i =>
      match output_fieldE (.subquery qs dec i) with
      | .error er => .error er
      | .ok f => .ok (conn.unificationCastSql f ("(" ++ qs.sql ++ ")"), qs.params)
  | .existsE qs _ ng _ =>
      let base := conn.unificationCastSql .BooleanField ("EXISTS(" ++ qs.sql ++ ")")
      .ok (if ng then "NOT " ++ base else base, qs.params)
  | .orderByE ex de nf nl _ =>
      match compileE conn ex with
      | .error er => .error er
      | .ok p =>
          let ord := if de then "DESC" else "ASC"
          let base := p.1 ++ " " ++ ord
          let sql := if nl then base ++ " NULLS LAST"
            else if nf then base ++ " NULLS FIRST"
            else base
          .ok (sql.trimRight, p.2)
  | .agg _ _ _ => .error .notImplementedError

/-- The argument loop of `Func.as_sql` (lines 558-563). -/
def compileList (conn : Conn) (es : List Expr) : Except Err (List String × List Val) :=
  match es with
  | [] => .ok ([], [])
  | e :: rest =>
      match compileE conn e with
      | .error er => .error er
      | .ok p =>
          match compileList conn rest with
          | .error er => .error er
          | .ok ps => .ok (p.1 :: ps.1, p.2 ++ ps.2)

/-- The `When`-compilation loop of `Case.as_sql` (lines 889-895): a `When`
raising the empty-result-set signal is skipped; any other exception
propagates. -/
def compileCases (conn : Conn) (cs : List Expr) : Except Err (List String × List Val) :=
  match cs with
  | [] => .ok ([], [])
  | w :: rest =>
      match compileE conn w with
      | .error .emptyResultSet => compileCases conn rest
      | .error er => .error er
      | .ok p =>
          match compileCases conn rest with
          | .error er => .error er
          | .ok ps => .ok (p.1 :: ps.1, p.2 ++ ps.2)

end

/-- Modelled from the spec (design note, section 9): the state of the
"cached lazy property with mutation of a private cache field on first
access" machinery on one node — its `_output_field` attribute and the
`cached_property` cells of `_output_field_or_none` and `output_field`
(django.utils.functional.cached_property is outside the given sources; it
stores the first successfully computed value in the instance and returns it
on every later access, while an exception leaves nothing cached). -/
structure NodeOF where
  declared : Option FieldCls
  ofonCache : Option (Option FieldCls)
  ofCache : Option FieldCls
  deriving DecidableEq, Repr

/-- `_resolve_output_field` (lines 241-266) as a state transformer on the
node: under the `_output_field is None` guard, zero sources leave it `None`;
otherwise the unification loop runs, assigning `self._output_field` as it
goes.  Returns the new state and whether FieldError was raised (the
assignments made before the raise persist, as in Python). -/
def resolveOutputFieldSt (s : NodeOF) (sources : List (Option FieldCls)) : NodeOF × Bool :=
  if s.declared.isSome then (s, false)
  else if sources.length = 0 then (s, false)
  else
    let p := rofLoop s.declared sources
    ({ s with declared := p.1 }, p.2)

/-- `_output_field_or_none` (lines 229-239) through its `cached_property`: a
cached value is returned as-is; otherwise `_resolve_output_field` runs when
`_output_field` is unset, and the resulting `_output_field` is returned and
cached — but only a successful return is cached. -/
def ofonSt (s : NodeOF) (sources : List (Option FieldCls)) :
    NodeOF × Except Err (Option FieldCls) :=
  match s.ofonCache with
  | some v => (s, .ok v)
  | none =>
      let p := if s.declared.isNone then resolveOutputFieldSt s sources else (s, false)
      if p.2 then (p.1, .error .fieldError)
      else ({ p.1 with ofonCache := some p.1.declared }, .ok p.1.declared)

/-- `output_field` (lines 222-227) through its `cached_property`: raises
FieldError when `_output_field_or_none` is `None`; a successful result is
cached. -/
def outputFieldSt (s : NodeOF) (sources : List (Option FieldCls)) :
    NodeOF × Except Err FieldCls :=
  match s.ofCache with
  | some f => (s, .ok f)
  | none =>
      let p := ofonSt s sources
      match p.2 with
      | .error er => (p.1, .error er)
      | .ok none => (p.1, .error .fieldError)
      | .ok (some f) => ({ p.1 with ofCache := some f }, .ok f)

/-- A fresh node state: no declared output field, nothing cached. -/
def freshNode : NodeOF := { declared := none, ofonCache := none, ofCache := none }

/-- Modelled from the spec: the base backend's generic combine-expression
fragment builder, joining the rendered sides with the connector (the
backend operations module is outside the given sources; the spec fixes the
shape through the concrete scenario `"(%s + %s)"` for `Value(3) + Value(4)`). -/
def defaultCombineExpression (connector : String) (subExprs : List String) : String :=
  String.intercalate (" " ++ connector ++ " ") subExprs

/-- Modelled from the spec: a default connection — native duration support,
passthrough identifier quoting and unification cast (the base backend's
cast template is a plain `%s`). -/
def defaultConn : Conn where
  hasNativeDurationField := true
  combineExpression := defaultCombineExpression
  combineDurationExpression := defaultCombineExpression
  unificationCastSql := fun _ s => s
  quoteName := fun s => s
  quoteNameUnlessAlias := fun s => s
  formatForDurationArithmetic := fun s => s
  subtractTemporals := fun _ l _ => l

/-- A concrete query context for witnesses and counterexamples: every
reference resolves to a column of table alias `T0` named after the
reference (spec section 8: field resolution yields a reference to a column
of that name). -/
def sampleQuery : Query where
  resolveRef := fun n _ _ _ =>
    match n with
    | .str s => .col "T0" s .IntegerField false
    | .outer _ => .col "T0" "outer" .IntegerField false

/-- The ordering stored in the queryset wrapped by a `Subquery`/`Exists`
node (the observable that `Exists.resolve_expression` line 1019 mutates);
`[]` for every other node. -/
def wrappedOrdering : Expr → List String
  | .subquery qs _ _ => qs.ordering
  | .existsE qs _ _ _ => qs.ordering
  | _ => []

/-- Whether a node is a `ResolvedOuterRef`. -/
def isResolvedOuterRef : Expr → Bool
  | .resolvedOuterRef _ => true
  | _ => false

/-- The node classes that use the base implementation of
`get_group_by_cols` (lines 303-309) — i.e. that do not override it and do
define it (`Value`, `Col`, `Ref`, `When`, `OrderBy` override; the `F`
family does not have the method). -/
def usesBaseGroupBy : Expr → Bool
  | .combined _ _ _ _ _ => true
  | .func _ _ _ _ => true
  | .caseE _ _ _ _ => true
  | .subquery _ _ _ => true
  | .existsE _ _ _ _ => true
  | .agg _ _ _ => true
  | _ => false

/-! Helper lemmas shared by the claim theorems. -/

theorem resolve_receiver_spec :
    (∀ (e : Expr) (q : Query) (aj : Bool) (ru : Option (List String)) (sm fs : Bool),
        (resolve e q aj ru sm fs).2 = postResolve e) ∧
    (∀ (annots : List (String × Expr)) (q : Query) (aj : Bool) (ru : Option (List String))
        (sm fs : Bool), True) ∧
    (∀ (cs : List WChild) (q : Query) (aj : Bool) (ru : Option (List String)) (sm fs : Bool),
        True) ∧
    (∀ (c : WChild) (q : Query) (aj : Bool) (ru : Option (List String)) (sm fs : Bool), True) ∧
    (∀ (r : Rhs) (q : Query) (aj : Bool) (ru : Option (List String)) (sm fs : Bool), True) ∧
    (∀ (es : List Expr) (q : Query) (aj : Bool) (ru : Option (List String)) (sm fs : Bool),
        (resolveList es q aj ru sm fs).2 = postResolveL es) := by
  apply resolve.mutual_induct <;> intros <;>
    simp_all [resolve, resolveList, postResolve, postResolveL, QuerySet.orderByNone]

theorem postResolve_id :
    (∀ e : Expr, noExistsWalk e = true → postResolve e = e) ∧
    (∀ es : List Expr, noExistsWalkL es = true → postResolveL es = es) := by
  apply postResolve.mutual_induct <;> intros <;>
    simp_all [postResolve, postResolveL, noExistsWalk, noExistsWalkL]

theorem resolveList_fst_length (es : List Expr) (q : Query) (aj : Bool)
    (ru : Option (List String)) (sm fs : Bool) :
    ((resolveList es q aj ru sm fs).1).length = es.length := by
  induction es with
  | nil => simp [resolveList]
  | cons e rest ih => simp [resolveList, ih]

theorem resolveWList_fst_collectLhs (cs : List WChild) (q : Query) (aj : Bool)
    (ru : Option (List String)) (sm fs : Bool) :
    collectLhs ((resolveWList cs q aj ru sm fs).1) = collectLhs cs := by
  induction cs with
  | nil => simp [resolveWList]
  | cons c rest ih =>
      cases c with
      | node children => simpa [resolveWList, resolveW, collectLhs] using ih
      | lookup lhs rhs =>
          cases lhs with
          | none => simpa [resolveWList, resolveW, collectLhs] using ih
          | some l => simpa [resolveWList, resolveW, collectLhs] using ih

theorem compileCases_ne_emptyResultSet (conn : Conn) (cs : List Expr) :
    compileCases conn cs ≠ .error .emptyResultSet := by
  induction cs with
  | nil => simp [compileCases]
  | cons w rest ih =>
      simp only [compileCases]
      split
      · exact ih
      · simp_all
      · split
        · simp_all
        · simp

theorem compileCases_all_skipped (conn : Conn) (cs : List Expr)
    (h : ∀ w ∈ cs, compileE conn w = .error .emptyResultSet) :
    compileCases conn cs = .ok ([], []) := by
  induction cs with
  | nil => simp [compileCases]
  | cons w rest ih =>
      have hw := h w (List.mem_cons_self w rest)
      simp only [compileCases, hw]
      exact ih fun x hx => h x (List.mem_cons_of_mem w hx)

theorem resolveOutputField_ne_emptyResultSet (srcs : List (Option FieldCls)) :
    resolveOutputField srcs ≠ .error .emptyResultSet := by
  simp only [resolveOutputField]
  split
  · simp
  · split <;> simp

theorem ofonE_ne_emptyResultSet :
    (∀ e : Expr, ofonE e ≠ .error .emptyResultSet) ∧
    (∀ ws : List WChild, ofonLhs ws ≠ .error .emptyResultSet) ∧
    (∀ es : List Expr, ofonL es ≠ .error .emptyResultSet) := by
  apply ofonE.mutual_induct <;> intros <;>
    simp_all only [ofonE, ofonL, ofonLhs, ne_eq] <;>
    repeat' first
    | assumption
    | exact resolveOutputField_ne_emptyResultSet _
    | (split <;> intros)
    | simp_all

/-! Theorems settling the claims. -/

/-- Claim C1, counterexample: the claim "calling resolve on N never mutates
the receiver N itself: after the call, N's fields (including, for
Subquery/Exists, the wrapped queryset) are unchanged" is false at an
`Exists` node wrapping an ordered queryset — `Exists.resolve_expression`
(line 1019) reassigns `self.queryset` to an order-stripped clone, so the
receiver's queryset field changes. -/
theorem exists_resolve_mutates_receiver :
    (resolve (.existsE (.mk [] ["name"] [] [] [] false "SQL" []) none false false)
        sampleQuery true none false false).2
      ≠ .existsE (.mk [] ["name"] [] [] [] false "SQL" []) none false false := by
  intro h
  exact absurd (congrArg wrappedOrdering h) (by decide)

/-- Claim C1, amended: `resolve_expression` leaves the receiver unchanged
except through `Exists` nodes: the post-call receiver is exactly the
original with every `Exists` reached along the resolve walk having its
queryset replaced by an order-stripped clone (`postResolve`); in particular
a node whose resolve walk reaches no `Exists` is left entirely unchanged. -/
theorem resolve_receiver_amended :
    (∀ (e : Expr) (q : Query) (aj : Bool) (ru : Option (List String)) (sm fs : Bool),
        (resolve e q aj ru sm fs).2 = postResolve e) ∧
    (∀ (e : Expr) (q : Query) (aj : Bool) (ru : Option (List String)) (sm fs : Bool),
        noExistsWalk e = true → (resolve e q aj ru sm fs).2 = e) :=
  ⟨resolve_receiver_spec.1,
   fun e q aj ru sm fs h =>
     (resolve_receiver_spec.1 e q aj ru sm fs).trans (postResolve_id.1 e h)⟩

/-- Claim C1, witness: the amended theorem applied to a concrete
Exists-free node — resolving `Value(3) + Col(T0.x)` leaves the receiver
untouched. -/
theorem resolve_receiver_amended_witness :
    noExistsWalk (.combined (.value (.int 3) none none false) "+"
        (.col "T0" "x" .IntegerField false) none false) = true ∧
    (resolve (.combined (.value (.int 3) none none false) "+"
        (.col "T0" "x" .IntegerField false) none false) sampleQuery true none false false).2
      = .combined (.value (.int 3) none none false) "+"
          (.col "T0" "x" .IntegerField false) none false :=
  ⟨by decide,
   resolve_receiver_amended.2
     (.combined (.value (.int 3) none none false) "+"
       (.col "T0" "x" .IntegerField false) none false)
     sampleQuery true none false false (by decide)⟩

/-- Claim C2: for every node that provides `get_source_expressions`, the
resolved node's source-expression list has the same length as the original's
(with positional correspondence: the base implementation and every override
rebuild the list index by index). -/
theorem resolve_preserves_source_length :
    ∀ (e : Expr) (q : Query) (aj : Bool) (ru : Option (List String)) (sm fs : Bool)
      (srcs : List Child),
      get_source_expressions e = some srcs →
      ∃ srcs2 : List Child,
        get_source_expressions (resolve e q aj ru sm fs).1 = some srcs2 ∧
        srcs2.length = srcs.length := by
  intro e q aj ru sm fs srcs h
  cases e with
  | value v d f i =>
      exact ⟨[], rfl, by simp_all [get_source_expressions]⟩
  | combined l c r d i =>
      refine ⟨_, rfl, ?_⟩
      simp only [get_source_expressions, Option.some.injEq] at h
      subst h
      rfl
  | func srcs0 f d i =>
      refine ⟨_, rfl, ?_⟩
      simp only [get_source_expressions, Option.some.injEq] at h
      subst h
      simp [resolve, List.length_map, resolveList_fst_length]
  | fref n => simp [get_source_expressions] at h
  | outerRef n => simp [get_source_expressions] at h
  | resolvedOuterRef n => simp [get_source_expressions] at h
  | col a c t i =>
      exact ⟨[], rfl, by simp_all [get_source_expressions]⟩
  | ref r s i =>
      exact ⟨srcs, by simp_all [resolve, get_source_expressions], rfl⟩
  | whenE c r i =>
      refine ⟨_, rfl, ?_⟩
      simp only [get_source_expressions, Option.some.injEq] at h
      subst h
      rfl
  | caseE cs d dec i =>
      refine ⟨_, rfl, ?_⟩
      simp only [get_source_expressions, Option.some.injEq] at h
      subst h
      simp [resolve, List.length_map, resolveList_fst_length]
  | subquery qs dec i =>
      cases qs with
      | mk sel ord w a ea pb sq pp =>
          refine ⟨_, rfl, ?_⟩
          simp only [get_source_expressions, QuerySet.whereChildren, Option.some.injEq] at h
          subst h
          simp [resolve, QuerySet.whereChildren, List.length_map, resolveWList_fst_collectLhs]
  | existsE qs dec ng i =>
      cases qs with
      | mk sel ord w a ea pb sq pp =>
          refine ⟨_, rfl, ?_⟩
          simp only [get_source_expressions, QuerySet.whereChildren, Option.some.injEq] at h
          subst h
          simp [resolve, QuerySet.whereChildren, List.length_map, resolveWList_fst_collectLhs]
  | orderByE ex de nf nl i =>
      refine ⟨_, rfl, ?_⟩
      simp only [get_source_expressions, Option.some.injEq] at h
      subst h
      rfl
  | agg srcs0 d i =>
      refine ⟨_, rfl, ?_⟩
      simp only [get_source_expressions, Option.some.injEq] at h
      subst h
      simp [resolve, List.length_map, resolveList_fst_length]

/-- Claim C2, witness: applied to `CombinedExpression(Value(3), '+',
Value(4))`, whose source list has length 2. -/
theorem resolve_preserves_source_length_witness :
    ∃ srcs2 : List Child,
      get_source_expressions
        ((resolve (.combined (.value (.int 3) none none false) "+"
            (.value (.int 4) none none false) none false)
          sampleQuery true none false false).1) = some srcs2 ∧
      srcs2.length =
        [Child.ex (.value (.int 3) none none false),
         Child.ex (.value (.int 4) none none false)].length :=
  resolve_preserves_source_length
    (.combined (.value (.int 3) none none false) "+"
      (.value (.int 4) none none false) none false)
    sampleQuery true none false false
    [Child.ex (.value (.int 3) none none false),
     Child.ex (.value (.int 4) none none false)] rfl

theorem rofLoop_const (g : FieldCls) :
    ∀ srcs : List (Option FieldCls), (∀ x ∈ srcs, x = some g) →
      rofLoop (some g) srcs = (some g, false) := by
  intro srcs
  induction srcs with
  | nil => intro _; rfl
  | cons x rest ih =>
      intro h
      have hx := h x (List.mem_cons_self x rest)
      have ihr := ih fun y hy => h y (List.mem_cons_of_mem x hy)
      rw [hx]
      simpa [rofLoop, instanceOf] using ihr

/-- Claim C3, counterexample: the claim's final part — "for a node with zero
sources and no declared type, setting N._output_field and re-requesting
returns that field without error" — is false: the first (failing) request
memoizes `None` in the `_output_field_or_none` cache, so after setting
`_output_field = IntegerField()` the re-request still raises FieldError
instead of returning the field. -/
theorem output_field_set_after_request_counterexample :
    (outputFieldSt freshNode []).2 = .error .fieldError ∧
    (outputFieldSt { (outputFieldSt freshNode []).1 with declared := some .IntegerField }
        []).2 ≠ .ok .IntegerField := by
  exact ⟨by decide, by decide⟩

/-- Claim C3, amended: the output-type accessor returns the declared field
when one is set; with no declared field it unifies the source fields,
raising FieldError on differing types; with zero sources FieldError is
raised exactly when the type is requested; but after a failed request the
`None` inference result is memoized, so setting `_output_field` and
re-requesting still raises FieldError — only setting it before the first
request returns it without error. -/
theorem output_field_machinery_amended :
    (∀ (f : FieldCls) (srcs : List (Option FieldCls)),
        (outputFieldSt { declared := some f, ofonCache := none, ofCache := none } srcs).2
          = .ok f) ∧
    (∀ (g : FieldCls) (srcs : List (Option FieldCls)),
        srcs ≠ [] → (∀ x ∈ srcs, x = some g) →
        (outputFieldSt freshNode srcs).2 = .ok g) ∧
    (∀ g h : FieldCls, g ≠ h →
        (outputFieldSt freshNode [some g, some h]).2 = .error .fieldError) ∧
    ((outputFieldSt freshNode []).2 = .error .fieldError) ∧
    (∀ f : FieldCls,
        (outputFieldSt { (outputFieldSt freshNode []).1 with declared := some f } []).2
          = .error .fieldError) := by
  refine ⟨?_, ?_, ?_, by decide, ?_⟩
  · intro f srcs
    simp [outputFieldSt, ofonSt]
  · intro g srcs hne hall
    cases srcs with
    | nil => exact absurd rfl hne
    | cons x rest =>
        have hx := hall x (List.mem_cons_self x rest)
        subst hx
        have hloop := rofLoop_const g rest fun y hy => hall y (List.mem_cons_of_mem _ hy)
        simp [outputFieldSt, ofonSt, resolveOutputFieldSt, freshNode, rofLoop,
          instanceOf, hloop]
  · intro g h hne
    have : (g == h) = false := by
      simpa using hne
    simp [outputFieldSt, ofonSt, resolveOutputFieldSt, freshNode, rofLoop, instanceOf, this]
  · intro f
    simp [outputFieldSt, ofonSt, resolveOutputFieldSt, freshNode]

/-- Claim C3, witness: unification of two matching IntegerField sources
succeeds; IntegerField against FloatField raises the configuration error. -/
theorem output_field_machinery_amended_witness :
    (outputFieldSt freshNode [some .IntegerField, some .IntegerField]).2
      = .ok .IntegerField ∧
    (outputFieldSt freshNode [some .IntegerField, some .FloatField]).2
      = .error .fieldError :=
  ⟨output_field_machinery_amended.2.1 .IntegerField
      [some .IntegerField, some .IntegerField] (by decide) (by decide),
   output_field_machinery_amended.2.2.1 .IntegerField .FloatField (by decide)⟩

/-- Claim C4, counterexample: the claim "the empty-result signal never
propagates as an exception out of Case.render" is false when the signal
arises while compiling the DEFAULT expression — `compiler.compile(self.default)`
(line 896) is outside the try/except, so a `When`-valued default whose
condition matches no rows makes `Case.as_sql` itself raise EmptyResultSet. -/
theorem case_empty_signal_escapes :
    compileE defaultConn
      (.caseE [.whenE (.mk (some ("c", [])) false []) (.value (.int 1) none none false) false]
        (.whenE (.mk none false []) (.value (.int 2) none none false) false) none false)
      = .error .emptyResultSet := by decide

/-- Claim C4, amended: `Case.as_sql` with zero `When` clauses compiles
exactly the default; a `When` raising the empty-result signal is skipped
(contributing neither SQL nor parameters); when every `When` is skipped only
the default is compiled; and the signal raised while compiling a `When`
never propagates — only a signal raised while compiling the default can
escape `Case.as_sql`. -/
theorem case_as_sql_amended :
    (∀ (conn : Conn) (d : Expr) (dec : Option FieldCls) (i : Bool),
        compileE conn (.caseE [] d dec i) = compileE conn d) ∧
    (∀ (conn : Conn) (w : Expr) (ws : List Expr) (d : Expr) (f : FieldCls) (i : Bool),
        compileE conn w = .error .emptyResultSet →
        compileE conn (.caseE (w :: ws) d (some f) i)
          = compileE conn (.caseE ws d (some f) i)) ∧
    (∀ (conn : Conn) (ws : List Expr) (d : Expr) (dec : Option FieldCls) (i : Bool),
        (∀ w ∈ ws, compileE conn w = .error .emptyResultSet) →
        compileE conn (.caseE ws d dec i) = compileE conn d) ∧
    (∀ (conn : Conn) (ws : List Expr) (d : Expr) (dec : Option FieldCls) (i : Bool),
        compileE conn d ≠ .error .emptyResultSet →
        compileE conn (.caseE ws d dec i) ≠ .error .emptyResultSet) := by
  refine ⟨fun conn d dec i => rfl, ?_, ?_, ?_⟩
  · intro conn w ws d f i hw
    have hof : ∀ cs : List Expr, ofonE (.caseE cs d (some f) i) = .ok (some f) :=
      fun _ => rfl
    cases ws with
    | nil =>
        simp only [compileE, compileCases, hw]
        cases hd : compileE conn d <;> simp
    | cons w2 rest =>
        have hcc : compileCases conn (w :: w2 :: rest) = compileCases conn (w2 :: rest) := by
          rw [compileCases, hw]
        simp only [compileE, List.isEmpty_cons, hcc, hof]
  · intro conn ws d dec i hall
    cases ws with
    | nil => rfl
    | cons w rest =>
        simp only [compileE, List.isEmpty_cons]
        rw [compileCases_all_skipped conn _ hall]
        cases hd : compileE conn d <;> simp
  · intro conn ws d dec i hd
    cases ws with
    | nil => simpa [compileE] using hd
    | cons w rest =>
        simp only [compileE, List.isEmpty_cons]
        cases hcc : compileCases conn (w :: rest) with
        | error er =>
            have := compileCases_ne_emptyResultSet conn (w :: rest)
            rw [hcc] at this
            simpa using fun h => this (by rw [h])
        | ok parts =>
            cases hdd : compileE conn d with
            | error er =>
                rw [hdd] at hd
                simpa using fun h => hd (by rw [h])
            | ok dp =>
                by_cases hp : parts.1.isEmpty
                · simp [hp]
                · simp only [hp, if_false, Bool.false_eq_true]
                  cases hof : ofonE (.caseE (w :: rest) d dec i) with
                  | error er =>
                      have := ofonE_ne_emptyResultSet.1 (.caseE (w :: rest) d dec i)
                      rw [hof] at this
                      simpa using fun h => this (by rw [h])
                  | ok o => cases o <;> simp

/-- Claim C4, witness: the amended theorem applied concretely — a `Case`
whose single `When` has a no-rows condition compiles exactly as its
default `Value(1)` alone. -/
theorem case_as_sql_amended_witness :
    compileE defaultConn
      (.caseE [.whenE (.mk none false []) (.value (.int 5) none none false) false]
        (.value (.int 1) none none false) none false)
      = compileE defaultConn (.value (.int 1) none none false) :=
  case_as_sql_amended.2.2.1 defaultConn
    [.whenE (.mk none false []) (.value (.int 5) none none false) false]
    (.value (.int 1) none none false) none false (by decide)

/-- Claim C5: `CombinedExpression(Value(3), '+', Value(4))` renders as
`"(%s + %s)"` with parameters `[3, 4]`; and in general, when neither the
duration nor the same-type temporal-subtraction special case applies, the
generic path compiles both sides, joins them with the dialect's
combine-expression builder and wraps the result in parentheses. -/
theorem combined_generic_rendering :
    (compileE defaultConn
        (.combined (.value (.int 3) none none false) "+" (.value (.int 4) none none false)
          none false)
      = .ok ("(%s + %s)", [.int 3, .int 4])) ∧
    (∀ (conn : Conn) (l r : Expr) (c : String) (dec : Option FieldCls) (i : Bool)
        (lo ro : Option FieldCls) (ls rs : String) (lp rp : List Val),
        catchFieldError (output_fieldE l) = .ok lo →
        catchFieldError (output_fieldE r) = .ok ro →
        durCondition conn lo ro = false →
        tempCondition c lo ro = false →
        compileE conn l = .ok (ls, lp) →
        compileE conn r = .ok (rs, rp) →
        compileE conn (.combined l c r dec i)
          = .ok ("(" ++ conn.combineExpression c [ls, rs] ++ ")", lp ++ rp)) := by
  constructor
  · rfl
  · intro conn l r c dec i lo ro ls rs lp rp hl hr hd ht hcl hcr
    simp only [compileE, hl, hr, hd, ht, hcl, hcr]
    simp

/-- Claim C5, witness: the generic path applied to `Value(5) * Value(6)`. -/
theorem combined_generic_rendering_witness :
    compileE defaultConn
        (.combined (.value (.int 5) none none false) "*" (.value (.int 6) none none false)
          none false)
      = .ok ("(" ++ defaultConn.combineExpression "*" ["%s", "%s"] ++ ")",
          [Val.int 5] ++ [Val.int 6]) :=
  combined_generic_rendering.2 defaultConn
    (.value (.int 5) none none false) (.value (.int 6) none none false)
    "*" none false none none "%s" "%s" [Val.int 5] [Val.int 6]
    rfl rfl rfl rfl rfl rfl

/-- Claim C6, counterexample: the claim "for every already-resolved outer
reference R, calling resolve on R is a no-op that returns R itself" is
false — `ResolvedOuterRef` inherits `F.resolve_expression`, which calls
`query.resolve_ref(self.name, ...)`: against a query that resolves names to
columns, the result is a `Col`, not the receiver. -/
theorem resolved_outer_ref_resolve_not_noop :
    (resolve (.resolvedOuterRef (.str "x")) sampleQuery true none false false).1
      ≠ .resolvedOuterRef (.str "x") := by
  intro h
  exact absurd (congrArg isResolvedOuterRef h) (by decide)

/-- Claim C6, amended: resolving a `ResolvedOuterRef` delegates to
`F.resolve_expression` (`query.resolve_ref` on its name) rather than
returning the receiver; the no-op case in `OuterRef.resolve_expression`
applies instead when an `OuterRef`'s name is itself an `OuterRef`: that
inner `OuterRef` is returned unchanged, while a string-named `OuterRef`
resolves to a fresh `ResolvedOuterRef` of the same name. -/
theorem outer_ref_resolution_amended :
    ∀ (q : Query) (aj : Bool) (ru : Option (List String)) (sm fs : Bool) (n : FName)
      (s : String),
      (resolve (.resolvedOuterRef n) q aj ru sm fs).1 = q.resolveRef n aj ru sm ∧
      (resolve (.outerRef (.outer n)) q aj ru sm fs).1 = .outerRef n ∧
      (resolve (.outerRef (.str s)) q aj ru sm fs).1 = .resolvedOuterRef (.str s) :=
  fun _ _ _ _ _ _ _ => ⟨rfl, rfl, rfl⟩

/-- Claim C7: `ResolvedOuterRef.as_sql` raises ValueError unconditionally —
for every connection and every name, rendering fails rather than producing
SQL. -/
theorem resolved_outer_ref_as_sql_raises :
    ∀ (conn : Conn) (n : FName), compileE conn (.resolvedOuterRef n) = .error .valueError :=
  fun _ _ => rfl

/-- Claim C8, counterexample: the claim "for every node N whose subtree
contains no aggregate, get_group_by_cols returns exactly [N]" is false at
`Value(5)`: `Value.get_group_by_cols` (lines 634-635) overrides the base
implementation and returns the empty list. -/
theorem value_group_by_cols_not_self :
    contains_aggregateE (.value (.int 5) none none false) = false ∧
    get_group_by_colsE (.value (.int 5) none none false)
      ≠ [.value (.int 5) none none false] := by
  refine ⟨rfl, fun h => ?_⟩
  simpa [get_group_by_colsE] using congrArg List.length h

/-- Claim C8, amended: for the node classes that use the base
implementation of `get_group_by_cols`, an aggregate-free node yields `[N]`
and a node containing an aggregate yields the concatenation of its
children's group-by columns (shown for the binary combined node); the
overriding classes behave differently — in particular `Value` always
returns `[]`. -/
theorem group_by_cols_amended :
    (∀ e : Expr, usesBaseGroupBy e = true → contains_aggregateE e = false →
        get_group_by_colsE e = [e]) ∧
    (∀ (l : Expr) (c : String) (r : Expr) (d : Option FieldCls) (i : Bool),
        contains_aggregateE (.combined l c r d i) = true →
        get_group_by_colsE (.combined l c r d i)
          = get_group_by_colsE l ++ get_group_by_colsE r) ∧
    (∀ (v : Val) (d : Option FieldCls) (f : Option Bool) (i : Bool),
        get_group_by_colsE (.value v d f i) = []) := by
  refine ⟨?_, ?_, fun _ _ _ _ => rfl⟩
  · intro e hb ha
    cases e with
    | value v d f i => simp [usesBaseGroupBy] at hb
    | combined l c r d i => simp [get_group_by_colsE, ha]
    | func s f d i => simp [get_group_by_colsE, ha]
    | fref n => simp [usesBaseGroupBy] at hb
    | outerRef n => simp [usesBaseGroupBy] at hb
    | resolvedOuterRef n => simp [usesBaseGroupBy] at hb
    | col a c t i => simp [usesBaseGroupBy] at hb
    | ref r s i => simp [usesBaseGroupBy] at hb
    | whenE c r i => simp [usesBaseGroupBy] at hb
    | caseE cs d dec i => simp [get_group_by_colsE, ha]
    | subquery qs dec i => cases qs; simp [get_group_by_colsE, ha]
    | existsE qs dec ng i => cases qs; simp [get_group_by_colsE, ha]
    | orderByE ex de nf nl i => simp [usesBaseGroupBy] at hb
    | agg s d i => simp [contains_aggregateE] at ha
  · intro l c r d i ha
    simp [get_group_by_colsE, ha]

/-- Claim C8, witness: an aggregate-free combined node is its own group-by
column list. -/
theorem group_by_cols_amended_witness :
    get_group_by_colsE (.combined (.col "T0" "a" .IntegerField false) "+"
        (.col "T0" "b" .IntegerField false) none false)
      = [.combined (.col "T0" "a" .IntegerField false) "+"
          (.col "T0" "b" .IntegerField false) none false] :=
  group_by_cols_amended.1
    (.combined (.col "T0" "a" .IntegerField false) "+"
      (.col "T0" "b" .IntegerField false) none false) rfl rfl

/-- Claim C9: `OrderBy` construction fails with a configuration error
(ValueError) exactly when both `nulls_first` and `nulls_last` are set, and
succeeds (yielding the node) exactly otherwise. -/
theorem order_by_nulls_flags :
    ∀ (e : Expr) (d nf nl : Bool),
      (orderByInit e d nf nl = .error .valueError ↔ nf = true ∧ nl = true) ∧
      (orderByInit e d nf nl = .ok (.orderByE e d nf nl false)
        ↔ ¬(nf = true ∧ nl = true)) := by
  intro e d nf nl
  cases nf <;> cases nl <;> simp [orderByInit]

/-- Claim C10: an `Exists` node's output type is always BooleanField — the
`output_field` property override (lines 1012-1014) wins over whatever
`Subquery.__init__`'s single-selected-column inference or an explicit
`output_field` argument stored in `_output_field`. -/
theorem exists_output_field_boolean :
    (∀ (qs : QuerySet) (ofld : Option FieldCls) (ng : Bool),
        output_fieldE (existsInit qs ofld ng) = .ok .BooleanField) ∧
    (∀ (qs : QuerySet) (dec : Option FieldCls) (ng i : Bool),
        output_fieldE (.existsE qs dec ng i) = .ok .BooleanField) :=
  ⟨fun _ _ _ => rfl, fun _ _ _ _ => rfl⟩

end DjangoExpr
